/-
Formal model of the telesync dashboard core (Table, encoding grammar, Card,
Page synchronization) exercised by the wave examples
(src/py/examples/plot_interval_polar.py, plot_interval_theta.py).
The telesync library itself is not vendored in this repository, so each
definition below is modelled from the specification document; the examples
fix the concrete usage (schemas given as space-separated strings, the `=`
field-reference sigil, coord/mark/channel tags, stack='auto').
-/
import Mathlib

set_option linter.unusedVariables false

namespace Wave

/-- Modelled from the spec: a cell value of a Table row (the examples put
category strings and numeric prices in rows; the model needs only equality). -/
inductive Value where
  | str (s : String)
  | num (n : Int)
deriving DecidableEq, Repr

instance : Inhabited Value := ⟨Value.str ""⟩

/-- Modelled from the spec: the error taxonomy of section 7 (SchemaError,
ArityError, ValidationError, UnknownFieldError, UnboundTableError). -/
inductive Err where
  | SchemaError
  | ArityError
  | ValidationError
  | UnknownFieldError (field : String)
  | UnboundTableError
deriving DecidableEq, Repr

/-- Modelled from the spec: a Table is an ordered schema of field names plus
an ordered sequence of rows, every row's arity equal to the schema length. -/
structure Table where
  schema : List String
  rows : List (List Value)
deriving DecidableEq, Repr

/-- Modelled from the spec: Table.create fails with SchemaError if the schema
is empty or has duplicate names; the expected row count is only a hint. -/
def Table.create (schema : List String) (expected_rows : Nat) : Except Err Table :=
  if schema.isEmpty then .error .SchemaError
  else if schema.Nodup then .ok ⟨schema, []⟩
  else .error .SchemaError

/-- Modelled from the spec: replace_rows replaces the Table content wholesale,
failing with ArityError (leaving the prior content unchanged) if any row's
length differs from the schema length. State-passing form: the returned Table
is the post-state. -/
def Table.replace_rows (t : Table) (rows : List (List Value)) : Table × Option Err :=
  if rows.all (fun r => decide (r.length = t.schema.length)) then
    ({ t with rows := rows }, none)
  else (t, some .ArityError)

/-- Split a character list on the space character (maximal runs between
spaces, like splitting a string on the space separator). -/
def splitOnSpace : List Char → List (List Char)
  | [] => [[]]
  | c :: cs =>
    if c = ' ' then [] :: splitOnSpace cs
    else match splitOnSpace cs with
      | [] => [[c]]
      | f :: fs => (c :: f) :: fs

/-- The field names denoted by a space-separated schema string. -/
def fieldNames (s : String) : List String :=
  (splitOnSpace s.data).map (fun cs => ⟨cs⟩)

/-- Modelled from the spec: the data constructor used by the examples takes
the schema as a single space-separated string of field names and an expected
row count, splitting the string into the ordered field-name sequence. -/
def data (schemaStr : String) (expected_rows : Nat) : Except Err Table :=
  Table.create (fieldNames schemaStr) expected_rows

/-- First-occurrence order: keeps the first occurrence of every element,
in order of first appearance. -/
def firstSeen {α : Type} [DecidableEq α] : List α → List α
  | [] => []
  | x :: xs => x :: (firstSeen xs).filter (fun y => decide (y ≠ x))

/-- Modelled from the spec: a mark descriptor of the encoding grammar — a
coordinate system tag, a mark type tag, an ordered channel mapping from
channel name to a string value (a leading `=` sigil marks a field reference,
anything else is a literal), an optional numeric y_min axis bound, and a
stack mode tag (none or auto). -/
structure MarkDescriptor where
  coordinate_system : String
  mark_type : String
  channels : List (String × String)
  y_min : Option Int
  stack : String
deriving DecidableEq, Repr

/-- Modelled from the spec: a plot specification is an ordered sequence of
mark descriptors. -/
structure PlotSpec where
  marks : List MarkDescriptor
deriving DecidableEq, Repr

/-- Modelled from the spec: the recognized coordinate system tags
(cartesian, polar, theta). -/
def coordTags : List String := ["cartesian", "polar", "theta"]

/-- Modelled from the spec: the recognized mark type tags
(point, line, interval, area, path). -/
def markTags : List String := ["point", "line", "interval", "area", "path"]

/-- Modelled from the spec: the recognized channel tags for a mark type
(x, y, color, size, shape). -/
def channelTagsFor (mark_type : String) : List String :=
  ["x", "y", "color", "size", "shape"]

/-- Modelled from the spec: a mark descriptor is valid when its coordinate
system and mark type are recognized tags and every channel name is a
recognized channel tag for that mark type. -/
def validMark (m : MarkDescriptor) : Bool :=
  decide (m.coordinate_system ∈ coordTags) &&
  decide (m.mark_type ∈ markTags) &&
  m.channels.all (fun ch => decide (ch.1 ∈ channelTagsFor m.mark_type))

/-- Modelled from the spec: build validates a sequence of mark descriptors
into a PlotSpec, failing with ValidationError on any unrecognized tag. -/
def build (marks : List MarkDescriptor) : Except Err PlotSpec :=
  if marks.all validMark then .ok ⟨marks⟩ else .error .ValidationError

/-- Modelled from the spec: a channel value is a field reference exactly when
it carries the leading `=` sigil. -/
def isFieldRef (v : String) : Bool := decide (v.data.head? = some '=')

/-- Modelled from the spec: the field name denoted by a field reference
(the value with the sigil stripped). -/
def refName (v : String) : String := ⟨v.data.drop 1⟩

/-- Modelled from the spec: the field references of one mark descriptor, in
channel declaration order. -/
def MarkDescriptor.fieldRefs (m : MarkDescriptor) : List String :=
  m.channels.filterMap (fun ch => if isFieldRef ch.2 then some (refName ch.2) else none)

/-- Modelled from the spec: all field references of a plot specification, in
mark-then-channel declaration order. -/
def PlotSpec.fieldRefs (s : PlotSpec) : List String :=
  (s.marks.map MarkDescriptor.fieldRefs).flatten

/-- Modelled from the spec: the field references of a spec that do not
resolve against a schema, in mark-then-channel declaration order. -/
def unresolved (s : PlotSpec) (schema : List String) : List String :=
  s.fieldRefs.filter (fun f => !decide (f ∈ schema))

/-- Modelled from the spec: resolve checks every field reference of the spec
against the schema, failing with UnknownFieldError naming the first
unresolved reference in mark-then-channel declaration order. -/
def resolve (s : PlotSpec) (schema : List String) : Except Err PlotSpec :=
  match unresolved s schema with
  | [] => .ok s
  | f :: _ => .error (.UnknownFieldError f)

/-- The values of column i across a list of rows. -/
def colValues (rows : List (List Value)) (i : Nat) : List Value :=
  rows.map (fun r => r.getD i default)

/-- Modelled from the spec: the stacking order for stack='auto' — the stacked
channel's categories in first-occurrence order across the whole Table. -/
def stackOrder (rows : List (List Value)) (stackIdx : Nat) : List Value :=
  firstSeen (colValues rows stackIdx)

/-- Modelled from the spec: the rows of one stacking group — the rows whose
non-stacked (grouping) channel has value g. -/
def groupRows (rows : List (List Value)) (groupIdx : Nat) (g : Value) : List (List Value) :=
  rows.filter (fun r => decide (r.getD groupIdx default = g))

/-- Modelled from the spec: the stacked sub-segments of group g — the stacked
channel's categories present in that group, ordered by the global
first-occurrence order (not per-group appearance order). -/
def stackSegments (rows : List (List Value)) (groupIdx stackIdx : Nat) (g : Value) :
    List Value :=
  (stackOrder rows stackIdx).filter
    (fun c => decide (c ∈ colValues (groupRows rows groupIdx g) stackIdx))

/-- Modelled from the spec: the stacking layout of a mark with stack='auto'
over a Table's rows — one entry per grouping-channel value (in
first-occurrence order), carrying that group's ordered sub-segments; empty
for a non-stacked mark. -/
def stackLayout (m : MarkDescriptor) (rows : List (List Value))
    (groupIdx stackIdx : Nat) : List (Value × List Value) :=
  if m.stack = "auto" then
    (firstSeen (colValues rows groupIdx)).map
      (fun g => (g, stackSegments rows groupIdx stackIdx g))
  else []

/-- Modelled from the spec: a Card — a layout/placement descriptor (opaque),
a title, exactly one PlotSpec, exactly one bound Table, and its dirty flag
(changed since the last successful sync). -/
structure Card where
  layout : String
  title : String
  plot : PlotSpec
  table : Table
  dirty : Bool
deriving DecidableEq, Repr

/-- Modelled from the spec: a Page — an insertion-ordered mapping from Card
name to Card (dirtiness is tracked on the Cards themselves). -/
structure Page where
  cards : List (String × Card)
deriving DecidableEq, Repr

/-- Modelled from the spec: Page.add inserts a Card under a name, replacing
the prior binding in place if the name already exists, marks the new Card
dirty, and returns the updated Page together with the live Card handle. -/
def Page.add (p : Page) (name : String) (c : Card) : Page × Card :=
  let c' : Card := { c with dirty := true }
  if p.cards.any (fun kv => decide (kv.1 = name)) then
    (⟨p.cards.map (fun kv => if kv.1 = name then (name, c') else kv)⟩, c')
  else (⟨p.cards ++ [(name, c')]⟩, c')

/-- Modelled from the spec: Page.remove deletes the Card bound to a name;
a no-op (not an error) when the name is absent. -/
def Page.remove (p : Page) (name : String) : Page :=
  ⟨p.cards.filter (fun kv => !decide (kv.1 = name))⟩

/-- Modelled from the spec: lookup of the Card currently bound to a name. -/
def Page.find? (p : Page) (name : String) : Option Card :=
  (p.cards.find? (fun kv => decide (kv.1 = name))).map Prod.snd

/-- Modelled from the spec: Card.set_data delegates to the bound Table's
replace_rows (failing with the same errors, atomically) and marks the Card
dirty on success. -/
def Card.set_data (c : Card) (rows : List (List Value)) : Card × Option Err :=
  match c.table.replace_rows rows with
  | (t, none) => ({ c with table := t, dirty := true }, none)
  | (_, some e) => (c, some e)

/-- Modelled from the spec: mutation of a live Card handle's data
(v.data = rows in the examples) — replaces the named Card's Table rows
wholesale through Card.set_data; a no-op when the name is unbound. -/
def Page.set_data (p : Page) (name : String) (rows : List (List Value)) :
    Page × Option Err :=
  match p.find? name with
  | none => (p, some .UnboundTableError)
  | some c =>
    match c.set_data rows with
    | (c', e) =>
      (⟨p.cards.map (fun kv => if kv.1 = name then (name, c') else kv)⟩, e)

/-- Modelled from the spec: the Card record serialized for one Card during
sync — name, layout, title, resolved spec, current Table rows and schema. -/
structure CardRecord where
  name : String
  layout : String
  title : String
  resolved_spec : PlotSpec
  rows : List (List Value)
  schema : List String
deriving DecidableEq, Repr

/-- Modelled from the spec: per-Card sync step — resolve the Card's PlotSpec
against its Table's current schema; on success produce the serialized Card
record, on UnknownFieldError abort for this Card only (none). -/
def syncCard (name : String) (c : Card) : Option CardRecord :=
  match resolve c.plot c.table.schema with
  | .ok rs => some ⟨name, c.layout, c.title, rs, c.table.rows, c.table.schema⟩
  | .error _ => none

/-- Modelled from the spec: the batch of Card records for one sync — the
dirty Cards that resolve successfully, in insertion order. -/
def Page.syncBatch (p : Page) : List CardRecord :=
  p.cards.filterMap (fun kv => if kv.2.dirty then syncCard kv.1 kv.2 else none)

/-- Modelled from the spec: the Page after a transmitting sync — the dirty
flag is cleared exactly on the successfully synced Cards; a Card whose
resolution failed stays dirty. -/
def Page.afterSync (p : Page) : Page :=
  ⟨p.cards.map (fun kv =>
    if kv.2.dirty && (syncCard kv.1 kv.2).isSome then
      (kv.1, { kv.2 with dirty := false })
    else kv)⟩

/-- Modelled from the spec: Page.sync — with an empty batch (no dirty Cards,
or none resolving) it is a no-op with no transmission (none); otherwise it
transmits the batch (some batch) and clears the dirty flags of the
successfully synced Cards. -/
def Page.sync (p : Page) : Page × Option (List CardRecord) :=
  if p.syncBatch.isEmpty then (p, none)
  else (p.afterSync, some p.syncBatch)

/-! Concrete instances mirroring the two example scripts, used to exercise
the theorems below on explicit inputs. -/

/-- The mark of the polar example: coord='polar', mark='interval',
x='=product', y='=price', y_min=0. -/
def demoPolarMark : MarkDescriptor :=
  ⟨"polar", "interval", [("x", "=product"), ("y", "=price")], some 0, "none"⟩

/-- The mark of the theta example: coord='theta', mark='interval',
x='=product', y='=price', color='=country', stack='auto', y_min=0. -/
def demoThetaMark : MarkDescriptor :=
  ⟨"theta", "interval",
    [("x", "=product"), ("y", "=price"), ("color", "=country")], some 0, "auto"⟩

/-- A mark with an unrecognized coordinate system tag. -/
def badMark : MarkDescriptor := ⟨"cubic", "interval", [("x", "=product")], none, "none"⟩

/-- The plot of the polar example. -/
def demoPlot : PlotSpec := ⟨[demoPolarMark]⟩

/-- A small Table with the polar example's schema. -/
def demoTable : Table :=
  ⟨["product", "price"], [[Value.str "a", Value.num 10], [Value.str "b", Value.num 20]]⟩

/-- A clean Card wrapping the polar example's plot and table. -/
def demoCard : Card := ⟨"1 1 4 5", "Interval, polar", demoPlot, demoTable, false⟩

/-- A dirty Card that resolves successfully. -/
def demoOkCard : Card := { demoCard with dirty := true }

/-- A plot referencing a field absent from demoTable's schema. -/
def demoBadPlot : PlotSpec :=
  ⟨[⟨"polar", "interval", [("x", "=missing"), ("y", "=price")], some 0, "none"⟩]⟩

/-- A dirty Card whose plot fails to resolve against its Table's schema. -/
def demoFailCard : Card := ⟨"1 1 4 5", "Broken", demoBadPlot, demoTable, true⟩

/-- A Page holding one failing dirty Card and one resolvable dirty Card. -/
def demoFailPage : Page := ⟨[("bad", demoFailCard), ("good", demoOkCard)]⟩

/-- The record demoOkCard serializes to under the name good. -/
def demoOkRec : CardRecord :=
  ⟨"good", "1 1 4 5", "Interval, polar", demoPlot, demoTable.rows, demoTable.schema⟩

/-- Rows for the stacking example: groups A and B on column 0, stacked
categories x, y, z on column 1 appearing globally in that order, while group
B sees them per-group in the order z, x, y. -/
def demoStackRows : List (List Value) :=
  [[Value.str "A", Value.str "x"], [Value.str "A", Value.str "y"],
   [Value.str "A", Value.str "z"], [Value.str "B", Value.str "z"],
   [Value.str "B", Value.str "x"], [Value.str "B", Value.str "y"]]

/-! Helper lemmas. -/

theorem mem_firstSeen {α : Type} [DecidableEq α] {l : List α} {a : α} :
    a ∈ firstSeen l ↔ a ∈ l := by
  induction l with
  | nil => simp [firstSeen]
  | cons x xs ih =>
    simp only [firstSeen, List.mem_cons, List.mem_filter, decide_eq_true_eq, ih]
    by_cases hax : a = x
    · simp [hax]
    · simp [hax]

theorem firstSeen_nodup {α : Type} [DecidableEq α] (l : List α) :
    (firstSeen l).Nodup := by
  induction l with
  | nil => simp [firstSeen]
  | cons x xs ih =>
    refine List.nodup_cons.2 ⟨?_, ih.filter _⟩
    intro hmem
    have := (List.mem_filter.1 hmem).2
    simp at this

/-! Claim theorems. -/

/-- Claim C1: for every mark with stack='auto' and bound rows, the stacking
layout groups rows by the non-stacked channel's value; each group's
sub-segments are exactly the stacked channel's categories present in that
group, listed without duplicates as a sublist of the one global
first-occurrence order — so every group's segments appear in the same global
order regardless of per-group appearance order. -/
theorem stack_auto_global_order (m : MarkDescriptor) (rows : List (List Value))
    (gi si : Nat) (g : Value) (hauto : m.stack = "auto") :
    stackLayout m rows gi si =
      (firstSeen (colValues rows gi)).map (fun g => (g, stackSegments rows gi si g)) ∧
    (∀ r, r ∈ groupRows rows gi g ↔ r ∈ rows ∧ r.getD gi default = g) ∧
    (∀ c, c ∈ stackSegments rows gi si g ↔
      c ∈ colValues (groupRows rows gi g) si) ∧
    List.Sublist (stackSegments rows gi si g) (stackOrder rows si) ∧
    (stackSegments rows gi si g).Nodup := by
  refine ⟨by simp [stackLayout, hauto], ?_, ?_, ?_, ?_⟩
  · intro r
    simp [groupRows, List.mem_filter]
  · intro c
    constructor
    · intro hc
      exact (by simpa using (List.mem_filter.1 hc).2)
    · intro hc
      refine List.mem_filter.2 ⟨?_, by simpa using hc⟩
      have hsub : List.Sublist (colValues (groupRows rows gi g) si) (colValues rows si) :=
        (List.filter_sublist rows).map _
      exact mem_firstSeen.2 (hsub.mem hc)
  · exact List.filter_sublist _
  · exact (firstSeen_nodup _).filter _

/-- Claim C1 witness: on the example rows, group B's segments follow the
global first-occurrence order x, y, z even though B's rows list them as
z, x, y. -/
theorem stack_auto_global_order_witness :
    demoThetaMark.stack = "auto" ∧
    List.Sublist (stackSegments demoStackRows 0 1 (Value.str "B"))
      (stackOrder demoStackRows 1) ∧
    stackSegments demoStackRows 0 1 (Value.str "B") =
      [Value.str "x", Value.str "y", Value.str "z"] :=
  ⟨rfl,
   (stack_auto_global_order demoThetaMark demoStackRows 0 1 (Value.str "B")
      rfl).2.2.2.1,
   by decide⟩

/-- Claim C4: resolve succeeds, with no residual unresolved references, when
the schema contains every referenced field; and when a referenced field is
absent, resolve fails with UnknownFieldError naming the first unresolved
reference in mark-then-channel declaration order. -/
theorem resolve_first_unknown (s : PlotSpec) (schema : List String) :
    ((∀ f ∈ s.fieldRefs, f ∈ schema) →
      resolve s schema = .ok s ∧ unresolved s schema = []) ∧
    (∀ pre f post, s.fieldRefs = pre ++ f :: post → (∀ g ∈ pre, g ∈ schema) →
      f ∉ schema → resolve s schema = .error (.UnknownFieldError f)) := by
  constructor
  · intro h
    have hnil : unresolved s schema = [] := by
      apply List.filter_eq_nil_iff.2
      intro f hf
      simp [h f hf]
    exact ⟨by simp [resolve, hnil], hnil⟩
  · intro pre f post heq hpre hf
    have hu : unresolved s schema =
        f :: post.filter (fun g => !decide (g ∈ schema)) := by
      unfold unresolved
      rw [heq, List.filter_append]
      have h1 : pre.filter (fun g => !decide (g ∈ schema)) = [] :=
        List.filter_eq_nil_iff.2 fun g hg => by simp [hpre g hg]
      rw [h1, List.nil_append, List.filter_cons]
      simp [hf]
    simp [resolve, hu]

/-- Claim C4 witness: the polar example's spec resolves against the schema
containing product and price, and dropping price makes resolve fail naming
price. -/
theorem resolve_first_unknown_witness :
    (resolve demoPlot ["product", "price"] = .ok demoPlot ∧
      unresolved demoPlot ["product", "price"] = []) ∧
    resolve demoPlot ["product"] = .error (.UnknownFieldError "price") :=
  ⟨(resolve_first_unknown demoPlot ["product", "price"]).1 (by decide),
   (resolve_first_unknown demoPlot ["product"]).2 ["product"] "price" []
     (by decide) (by decide) (by decide)⟩

/-- Claim C5: replace_rows with any row whose arity differs from the schema
length fails with ArityError and leaves the Table's prior content
unchanged. -/
theorem replace_rows_arity_atomic (t : Table) (rows : List (List Value))
    (h : ∃ r ∈ rows, r.length ≠ t.schema.length) :
    t.replace_rows rows = (t, some Err.ArityError) := by
  obtain ⟨r, hr, hne⟩ := h
  have hall : ¬ rows.all (fun r => decide (r.length = t.schema.length)) = true := by
    intro hall
    exact hne (by simpa using List.all_eq_true.1 hall r hr)
  simp only [Table.replace_rows, if_neg hall]

/-- Claim C5 witness: a one-cell row against the two-field demo schema fails
with ArityError and the Table is returned unchanged. -/
theorem replace_rows_arity_atomic_witness :
    demoTable.replace_rows [[Value.num 1]] = (demoTable, some Err.ArityError) :=
  replace_rows_arity_atomic demoTable [[Value.num 1]]
    ⟨[Value.num 1], by decide, by decide⟩

/-- Claim C7: build fails with ValidationError when any descriptor carries an
unrecognized coordinate-system, mark-type, or channel tag, and succeeds when
every tag is recognized. -/
theorem build_validates_tags (marks : List MarkDescriptor) :
    ((∃ m ∈ marks, m.coordinate_system ∉ coordTags ∨ m.mark_type ∉ markTags ∨
        ∃ ch ∈ m.channels, ch.1 ∉ channelTagsFor m.mark_type) →
      build marks = .error Err.ValidationError) ∧
    ((∀ m ∈ marks, m.coordinate_system ∈ coordTags ∧ m.mark_type ∈ markTags ∧
        ∀ ch ∈ m.channels, ch.1 ∈ channelTagsFor m.mark_type) →
      build marks = .ok ⟨marks⟩) := by
  constructor
  · rintro ⟨m, hm, hbad⟩
    have hnall : ¬ marks.all validMark = true := by
      intro hall
      have hv := List.all_eq_true.1 hall m hm
      unfold validMark at hv
      simp only [Bool.and_eq_true, decide_eq_true_eq, List.all_eq_true] at hv
      rcases hbad with h | h | ⟨ch, hch, h⟩
      · exact h hv.1.1
      · exact h hv.1.2
      · exact h (by simpa using hv.2 ch hch)
    simp only [build, if_neg hnall]
  · intro h
    have hall : marks.all validMark = true := by
      apply List.all_eq_true.2
      intro m hm
      unfold validMark
      simp only [Bool.and_eq_true, decide_eq_true_eq, List.all_eq_true]
      obtain ⟨h1, h2, h3⟩ := h m hm
      exact ⟨⟨h1, h2⟩, fun ch hch => by simpa using h3 ch hch⟩
    simp only [build, if_pos hall]

/-- Claim C7 witness: the theta example's mark (coord='theta',
mark='interval', channels x, y, color) builds, and a mark with an
unrecognized coordinate tag fails with ValidationError. -/
theorem build_validates_tags_witness :
    build [demoThetaMark] = .ok ⟨[demoThetaMark]⟩ ∧
    build [badMark] = .error Err.ValidationError :=
  ⟨(build_validates_tags [demoThetaMark]).2 (by decide),
   (build_validates_tags [badMark]).1 ⟨badMark, by decide, Or.inl (by decide)⟩⟩

/-- Claim C8: Page.remove of an absent name is a no-op returning without
error, and removing the same name twice leaves the Page as removing it
once. -/
theorem remove_idempotent (p : Page) (name : String) :
    ((∀ kv ∈ p.cards, kv.1 ≠ name) → p.remove name = p) ∧
    (p.remove name).remove name = p.remove name := by
  constructor
  · intro h
    cases p with
    | mk cards =>
      simp only [Page.remove, Page.mk.injEq]
      apply List.filter_eq_self.2
      intro kv hkv
      simp [h kv hkv]
  · cases p with
    | mk cards =>
      simp only [Page.remove, Page.mk.injEq]
      apply List.filter_eq_self.2
      intro kv hkv
      exact (List.mem_filter.1 hkv).2

/-- Claim C8 witness: removing a name absent from a one-card Page returns it
unchanged, and a second removal changes nothing. -/
theorem remove_idempotent_witness :
    (Page.remove ⟨[("example", demoCard)]⟩ "other" = ⟨[("example", demoCard)]⟩) ∧
    (Page.remove (Page.remove ⟨[("example", demoCard)]⟩ "other") "other" =
      Page.remove ⟨[("example", demoCard)]⟩ "other") :=
  ⟨(remove_idempotent ⟨[("example", demoCard)]⟩ "other").1 (by decide),
   (remove_idempotent ⟨[("example", demoCard)]⟩ "other").2⟩

/-- Claim C10: the data constructor splits a space-separated schema string
into the ordered field-name sequence (so the theta example's string yields
the three-field schema), and rows of matching arity are then accepted
against that schema. -/
theorem data_splits_schema (n : Nat) (rows : List (List Value)) :
    data "country product price" n = .ok ⟨["country", "product", "price"], []⟩ ∧
    ((∀ r ∈ rows, r.length = 3) →
      Table.replace_rows ⟨["country", "product", "price"], []⟩ rows =
        (⟨["country", "product", "price"], rows⟩, none)) := by
  constructor
  · rfl
  · intro h
    have hall : rows.all
        (fun r => decide (r.length = (["country", "product", "price"] : List String).length)) = true :=
      List.all_eq_true.2 fun r hr => by simp [h r hr]
    simp only [Table.replace_rows, hall, if_pos]

/-- Claim C10 witness: the theta example's schema string yields the schema
country, product, price, and a three-cell row is accepted against it. -/
theorem data_splits_schema_witness :
    data "country product price" 50 = .ok ⟨["country", "product", "price"], []⟩ ∧
    Table.replace_rows ⟨["country", "product", "price"], []⟩
        [[Value.str "US", Value.str "widget", Value.num 7]] =
      (⟨["country", "product", "price"],
        [[Value.str "US", Value.str "widget", Value.num 7]]⟩, none) :=
  ⟨(data_splits_schema 50 []).1,
   (data_splits_schema 50 [[Value.str "US", Value.str "widget", Value.num 7]]).2
     (by decide)⟩

theorem map_id_of {α : Type} (f : α → α) (l : List α) (h : ∀ a ∈ l, f a = a) :
    l.map f = l := by
  induction l with
  | nil => rfl
  | cons x xs ih =>
    rw [List.map_cons, h x (by simp), ih (fun a ha => h a (by simp [ha]))]

theorem sync_clean (p : Page) (hclean : ∀ kv ∈ p.cards, kv.2.dirty = false) :
    p.sync = (p, none) := by
  have hbatch : p.syncBatch = [] :=
    List.filterMap_eq_nil_iff.2 fun kv hkv => by simp [hclean kv hkv]
  simp [Page.sync, hbatch]

theorem sync_single_dirty (cs : List (String × Card)) (name : String) (c : Card)
    (rec : CardRecord) (hclean : ∀ kv ∈ cs, kv.2.dirty = false)
    (hdirty : c.dirty = true) (hres : syncCard name c = some rec) :
    Page.sync ⟨cs ++ [(name, c)]⟩ =
      (⟨cs ++ [(name, { c with dirty := false })]⟩, some [rec]) := by
  have hbatch : Page.syncBatch ⟨cs ++ [(name, c)]⟩ = [rec] := by
    unfold Page.syncBatch
    rw [List.filterMap_append]
    have h1 : cs.filterMap
        (fun kv => if kv.2.dirty then syncCard kv.1 kv.2 else none) = [] :=
      List.filterMap_eq_nil_iff.2 fun kv hkv => by simp [hclean kv hkv]
    simp [h1, hdirty, hres]
  have hafter : Page.afterSync ⟨cs ++ [(name, c)]⟩ =
      ⟨cs ++ [(name, { c with dirty := false })]⟩ := by
    unfold Page.afterSync
    simp only [List.map_append, Page.mk.injEq]
    rw [map_id_of _ cs (fun kv hkv => by simp [hclean kv hkv])]
    simp [hdirty, hres]
  simp [Page.sync, hbatch, hafter]

theorem add_fresh (p : Page) (name : String) (c : Card)
    (hfresh : ∀ kv ∈ p.cards, kv.1 ≠ name) :
    (p.add name c).1 = ⟨p.cards ++ [(name, { c with dirty := true })]⟩ := by
  have hany : p.cards.any (fun kv => decide (kv.1 = name)) = false := by
    rw [List.any_eq_false]
    intro kv hkv
    simp [hfresh kv hkv]
  simp [Page.add, hany]

theorem find_fresh (cs : List (String × Card)) (name : String) (c : Card)
    (hfresh : ∀ kv ∈ cs, kv.1 ≠ name) :
    (cs ++ [(name, c)]).find? (fun kv => decide (kv.1 = name)) = some (name, c) := by
  induction cs with
  | nil => simp
  | cons kv tl ih =>
    have h1 : kv.1 ≠ name := hfresh kv (by simp)
    rw [List.cons_append, List.find?_cons, decide_eq_false h1]
    exact ih fun kv' h => hfresh kv' (by simp [h])

/-- Claim C2: Page.add of a new Card to a quiescent Page followed immediately
by sync transmits exactly one Card record carrying that Card's full current
Table content, and a second sync with no intervening mutation transmits
nothing. -/
theorem add_then_sync_once (p : Page) (name : String) (c : Card) (rs : PlotSpec)
    (hfresh : ∀ kv ∈ p.cards, kv.1 ≠ name)
    (hclean : ∀ kv ∈ p.cards, kv.2.dirty = false)
    (hres : resolve c.plot c.table.schema = .ok rs) :
    ((p.add name c).1.sync).2 =
      some [⟨name, c.layout, c.title, rs, c.table.rows, c.table.schema⟩] ∧
    ((p.add name c).1.sync).1.sync = (((p.add name c).1.sync).1, none) := by
  have hadd := add_fresh p name c hfresh
  have hsc : syncCard name { c with dirty := true } =
      some ⟨name, c.layout, c.title, rs, c.table.rows, c.table.schema⟩ := by
    simp [syncCard, hres]
  have hsync := sync_single_dirty p.cards name { c with dirty := true }
    ⟨name, c.layout, c.title, rs, c.table.rows, c.table.schema⟩ hclean rfl hsc
  rw [hadd, hsync]
  refine ⟨rfl, ?_⟩
  exact sync_clean _ (fun kv hkv => by
    rcases List.mem_append.1 hkv with h | h
    · exact hclean kv h
    · simp at h
      rw [h])

/-- Claim C2 witness: adding the example Card to the empty Page and syncing
transmits its record with the full table content, and a second sync
transmits nothing. -/
theorem add_then_sync_once_witness :
    ((Page.add ⟨[]⟩ "example" demoCard).1.sync).2 =
      some [⟨"example", "1 1 4 5", "Interval, polar", demoPlot,
        demoTable.rows, demoTable.schema⟩] ∧
    ((Page.add ⟨[]⟩ "example" demoCard).1.sync).1.sync =
      (((Page.add ⟨[]⟩ "example" demoCard).1.sync).1, none) :=
  add_then_sync_once ⟨[]⟩ "example" demoCard demoPlot
    (by simp) (by simp) (by rfl)

theorem map_fst_replace (l : List (String × Card)) (name : String) (c' : Card) :
    (l.map (fun kv => if kv.1 = name then (name, c') else kv)).map Prod.fst =
      l.map Prod.fst := by
  induction l with
  | nil => rfl
  | cons kv tl ih =>
    by_cases h : kv.1 = name <;> simp [h, ih]

theorem find_replace (l : List (String × Card)) (name : String) (c' : Card)
    (h : ∃ c₀, (name, c₀) ∈ l) :
    (l.map (fun kv => if kv.1 = name then (name, c') else kv)).find?
      (fun kv => decide (kv.1 = name)) = some (name, c') := by
  induction l with
  | nil =>
    obtain ⟨c₀, hc⟩ := h
    simp at hc
  | cons kv tl ih =>
    by_cases hk : kv.1 = name
    · simp [List.find?_cons, hk]
    · rw [List.map_cons, if_neg hk, List.find?_cons, decide_eq_false hk]
      obtain ⟨c₀, hc⟩ := h
      rcases List.mem_cons.1 hc with heq | hmem
      · exact absurd (by rw [← heq]) hk
      · exact ih ⟨c₀, hmem⟩

/-- Claim C6: Page.add keeps Card names unique, marks the added Card dirty,
and with an already-bound name it replaces the prior Card's binding (same
card count, the name now resolving to the new dirty Card) rather than
failing or keeping both. -/
theorem add_replaces_duplicate (p : Page) (name : String) (c : Card)
    (hnodup : (p.cards.map Prod.fst).Nodup) :
    ((p.add name c).1.cards.map Prod.fst).Nodup ∧
    (p.add name c).2.dirty = true ∧
    ((∃ c₀, (name, c₀) ∈ p.cards) →
      (p.add name c).1.cards.length = p.cards.length ∧
      (p.add name c).1.find? name = some { c with dirty := true }) := by
  refine ⟨?_, ?_, ?_⟩
  · unfold Page.add
    by_cases hany : p.cards.any (fun kv => decide (kv.1 = name)) = true
    · simp only [hany, if_true]
      rw [map_fst_replace]
      exact hnodup
    · simp only [hany, if_false]
      have hany' : p.cards.any (fun kv => decide (kv.1 = name)) = false :=
        Bool.eq_false_iff.mpr hany
      have hnotmem : name ∉ p.cards.map Prod.fst := by
        intro hmem
        obtain ⟨kv, hkv, hfst⟩ := List.mem_map.1 hmem
        have hx := List.any_eq_false.1 hany' kv hkv
        simp [hfst] at hx
      simp [List.nodup_append, hnodup, hnotmem]
  · unfold Page.add
    by_cases hany : p.cards.any (fun kv => decide (kv.1 = name)) = true <;>
      simp [hany]
  · rintro ⟨c₀, hc₀⟩
    have hany : p.cards.any (fun kv => decide (kv.1 = name)) = true :=
      List.any_eq_true.2 ⟨(name, c₀), hc₀, by simp⟩
    unfold Page.add
    simp only [hany, if_true]
    refine ⟨by simp, ?_⟩
    unfold Page.find?
    rw [find_replace p.cards name _ ⟨c₀, hc₀⟩]
    rfl

/-- Claim C6 witness: re-adding under the bound name example replaces the
binding on a one-card Page — the count stays one and the name now resolves
to the new Card, marked dirty. -/
theorem add_replaces_duplicate_witness :
    ((Page.add ⟨[("example", demoCard)]⟩ "example" demoFailCard).1.cards.map
      Prod.fst).Nodup ∧
    (Page.add ⟨[("example", demoCard)]⟩ "example" demoFailCard).2.dirty = true ∧
    ((Page.add ⟨[("example", demoCard)]⟩ "example" demoFailCard).1.cards.length = 1 ∧
     (Page.add ⟨[("example", demoCard)]⟩ "example" demoFailCard).1.find? "example" =
       some { demoFailCard with dirty := true }) := by
  have h := add_replaces_duplicate ⟨[("example", demoCard)]⟩ "example" demoFailCard
    (by simp)
  exact ⟨h.1, h.2.1, h.2.2 ⟨demoCard, by simp⟩⟩

/-- Claim C3: per-Card failure isolation during sync — a dirty Card whose
PlotSpec fails to resolve with UnknownFieldError is skipped and stays dirty,
while every other dirty Card that resolves is still serialized and
transmitted with its dirty flag cleared, and clean Cards are untouched. -/
theorem sync_failure_isolation (p : Page) (nf : String) (cf : Card) (fld : String)
    (hmem : (nf, cf) ∈ p.cards) (hdirty : cf.dirty = true)
    (hfail : resolve cf.plot cf.table.schema = .error (.UnknownFieldError fld)) :
    (nf, cf) ∈ (p.sync).1.cards ∧
    (∀ n' c' rec, (n', c') ∈ p.cards → c'.dirty = true →
      syncCard n' c' = some rec →
      (∃ batch, (p.sync).2 = some batch ∧ rec ∈ batch) ∧
      (n', { c' with dirty := false }) ∈ (p.sync).1.cards) ∧
    (∀ n' c', (n', c') ∈ p.cards → c'.dirty = false →
      (n', c') ∈ (p.sync).1.cards) := by
  have hfailc : syncCard nf cf = none := by simp [syncCard, hfail]
  refine ⟨?_, ?_, ?_⟩
  · by_cases hb : p.syncBatch.isEmpty
    · simpa [Page.sync, hb] using hmem
    · simp only [Page.sync, hb, if_false, Bool.false_eq_true]
      unfold Page.afterSync
      have hmm := List.mem_map_of_mem (fun kv =>
        if kv.2.dirty && (syncCard kv.1 kv.2).isSome then
          (kv.1, { kv.2 with dirty := false })
        else kv) hmem
      simpa [hfailc] using hmm
  · intro n' c' rec hmem' hdirty' hrec
    have hrecb : rec ∈ p.syncBatch := by
      unfold Page.syncBatch
      exact List.mem_filterMap.2 ⟨(n', c'), hmem', by simp [hdirty', hrec]⟩
    have hb : p.syncBatch.isEmpty = false := by
      cases hx : p.syncBatch with
      | nil => rw [hx] at hrecb; simp at hrecb
      | cons a l => simp
    refine ⟨⟨p.syncBatch, by simp [Page.sync, hb], hrecb⟩, ?_⟩
    simp only [Page.sync, hb, if_false, Bool.false_eq_true]
    unfold Page.afterSync
    have hmm := List.mem_map_of_mem (fun kv =>
      if kv.2.dirty && (syncCard kv.1 kv.2).isSome then
        (kv.1, { kv.2 with dirty := false })
      else kv) hmem'
    simpa [hdirty', hrec] using hmm
  · intro n' c' hmem' hclean'
    by_cases hb : p.syncBatch.isEmpty
    · simpa [Page.sync, hb] using hmem'
    · simp only [Page.sync, hb, if_false, Bool.false_eq_true]
      unfold Page.afterSync
      have hmm := List.mem_map_of_mem (fun kv =>
        if kv.2.dirty && (syncCard kv.1 kv.2).isSome then
          (kv.1, { kv.2 with dirty := false })
        else kv) hmem'
      simpa [hclean'] using hmm

/-- Claim C3 witness: on a Page with one failing dirty Card (bad) and one
resolvable dirty Card (good), sync transmits good's record, clears good's
dirty flag, and leaves bad present and still dirty. -/
theorem sync_failure_isolation_witness :
    ("bad", demoFailCard) ∈ (demoFailPage.sync).1.cards ∧
    (∃ batch, (demoFailPage.sync).2 = some batch ∧ demoOkRec ∈ batch) ∧
    ("good", { demoOkCard with dirty := false }) ∈ (demoFailPage.sync).1.cards := by
  have h := sync_failure_isolation demoFailPage "bad" demoFailCard "missing"
    (by decide) rfl (by rfl)
  have h2 := h.2.1 "good" demoOkCard demoOkRec (by decide) rfl (by rfl)
  exact ⟨h.1, h2.1, h2.2⟩

/-- Claim C9: the Card handle returned by Page.add is live — assigning a row
sequence to its data after add replaces the bound Table's rows, so the
following sync transmits the assigned rows, not the Table content the Card
was created with at add time. -/
theorem live_handle_sync_new_rows (p : Page) (name : String) (c : Card)
    (rs : PlotSpec) (newRows : List (List Value))
    (hfresh : ∀ kv ∈ p.cards, kv.1 ≠ name)
    (hclean : ∀ kv ∈ p.cards, kv.2.dirty = false)
    (hres : resolve c.plot c.table.schema = .ok rs)
    (harity : ∀ r ∈ newRows, r.length = c.table.schema.length) :
    (((p.add name c).1.set_data name newRows).1.sync).2 =
      some [⟨name, c.layout, c.title, rs, newRows, c.table.schema⟩] := by
  have hadd := add_fresh p name c hfresh
  have hfind : Page.find? ⟨p.cards ++ [(name, { c with dirty := true })]⟩ name =
      some { c with dirty := true } := by
    unfold Page.find?
    rw [find_fresh p.cards name _ hfresh]
    rfl
  have hall : newRows.all (fun r => decide (r.length = c.table.schema.length)) = true :=
    List.all_eq_true.2 fun r hr => by simp [harity r hr]
  have hsd : Page.set_data ⟨p.cards ++ [(name, { c with dirty := true })]⟩
      name newRows =
      (⟨p.cards ++
        [(name, { c with table := ⟨c.table.schema, newRows⟩, dirty := true })]⟩,
       none) := by
    unfold Page.set_data
    rw [hfind]
    unfold Card.set_data Table.replace_rows
    simp only [hall, if_pos, List.map_append, Prod.mk.injEq, Page.mk.injEq]
    rw [map_id_of _ p.cards (fun kv hkv => by simp [hfresh kv hkv])]
    simp
  have hsc : syncCard name
      { c with table := ⟨c.table.schema, newRows⟩, dirty := true } =
      some ⟨name, c.layout, c.title, rs, newRows, c.table.schema⟩ := by
    simp [syncCard, hres]
  have hsync := sync_single_dirty p.cards name
    { c with table := ⟨c.table.schema, newRows⟩, dirty := true }
    ⟨name, c.layout, c.title, rs, newRows, c.table.schema⟩ hclean rfl hsc
  rw [hadd, hsd, hsync]

/-- Claim C9 witness: adding the example Card (two initial rows) to the empty
Page, assigning one fresh row through the handle, then syncing transmits the
assigned row, not the initial content. -/
theorem live_handle_sync_new_rows_witness :
    (((Page.add ⟨[]⟩ "example" demoCard).1.set_data "example"
        [[Value.str "c", Value.num 30]]).1.sync).2 =
      some [⟨"example", "1 1 4 5", "Interval, polar", demoPlot,
        [[Value.str "c", Value.num 30]], ["product", "price"]⟩] :=
  live_handle_sync_new_rows ⟨[]⟩ "example" demoCard demoPlot
    [[Value.str "c", Value.num 30]] (by simp) (by simp) (by rfl) (by decide)

end Wave
